import Mathlib

/-!
Verification of the geometry utility library
`submodules/Pplan/utils/geometry_utils.py` against its specification.

The Python functions are shallowly embedded as Lean functions over `ℝ`.
Batched 1-D arrays become `List ℝ` (or lists of pairs / poses), 2-D grids
become `Fin W → Fin H → ℝ`, and the small square transform matrices become
`Matrix (Fin (n+1)) (Fin (n+1)) ℝ`.  Python's `%` on reals is the
floor-convention modulus `a - m * ⌊a / m⌋`.
-/

open Real

noncomputable section

/-- Embedding of `round_2pi(x) = (x + np.pi) % (2 * np.pi) - np.pi`
(geometry_utils.py lines 88-89).  Python `%` is floor-modulus. -/
def round_2pi (x : ℝ) : ℝ :=
  ((x + π) - 2 * π * ⌊(x + π) / (2 * π)⌋) - π

/-! ### Drivable-area distance field (`calc_distance_map`, lines 432-448) -/

/-- A `W × H` grid of reals, the embedding of a 2-D float tensor
(the batch dimensions of `calc_distance_map` act pointwise and are dropped). -/
def Grid (W H : ℕ) := Fin W → Fin H → ℝ

/-- Embedding of the initialisation of `calc_distance_map`:
`out = zeros_like(road_flag)`, then `out[road_flag == 0] = max_dis`,
then `out[road_flag == 1] = 0` (assignments in this order, the last wins). -/
def initDistanceMap (W H : ℕ) (road_flag : Fin W → Fin H → ℤ) (max_dis : ℕ) :
    Grid W H :=
  fun i j =>
    if road_flag i j = 1 then 0
    else if road_flag i j = 0 then (max_dis : ℝ) else 0

/-- Sweep `out[..., 1:, :] = torch.min(out[..., 1:, :], out[..., :-1, :] + 1)`:
the right-hand side reads the array before the assignment, so the sweep is a
simultaneous update. -/
def sweepRowInc {W H : ℕ} (g : Grid W H) : Grid W H :=
  fun i j =>
    if _h : 0 < i.val then
      min (g i j) (g ⟨i.val - 1, lt_of_le_of_lt (Nat.sub_le _ _) i.isLt⟩ j + 1)
    else g i j

/-- Sweep `out[..., :-1, :] = torch.min(out[..., :-1, :], out[..., 1:, :] + 1)`. -/
def sweepRowDec {W H : ℕ} (g : Grid W H) : Grid W H :=
  fun i j =>
    if h : i.val + 1 < W then min (g i j) (g ⟨i.val + 1, h⟩ j + 1) else g i j

/-- Sweep `out[..., :, 1:] = torch.min(out[..., :, 1:], out[..., :, :-1] + 1)`. -/
def sweepColInc {W H : ℕ} (g : Grid W H) : Grid W H :=
  fun i j =>
    if _h : 0 < j.val then
      min (g i j) (g i ⟨j.val - 1, lt_of_le_of_lt (Nat.sub_le _ _) j.isLt⟩ + 1)
    else g i j

/-- Sweep `out[..., :, :-1] = torch.min(out[..., :, :-1], out[..., :, 1:] + 1)`. -/
def sweepColDec {W H : ℕ} (g : Grid W H) : Grid W H :=
  fun i j =>
    if h : j.val + 1 < H then min (g i j) (g i ⟨j.val + 1, h⟩ + 1) else g i j

/-- One iteration of the relaxation loop body: the four sweeps in source order. -/
def relaxOnce {W H : ℕ} (g : Grid W H) : Grid W H :=
  sweepColDec (sweepColInc (sweepRowDec (sweepRowInc g)))

/-- Embedding of `calc_distance_map(road_flag, max_dis)`
(geometry_utils.py lines 432-448): initialise from the 0/1 mask, then run the
four-sweep relaxation `max_dis - 1` times. -/
def calc_distance_map (W H : ℕ) (road_flag : Fin W → Fin H → ℤ) (max_dis : ℕ) :
    Grid W H :=
  relaxOnce^[max_dis - 1] (initDistanceMap W H road_flag max_dis)

/-- Invariant used for the distance-map proofs: every cell is within
`[0, M]` and every drivable cell (mask value 1) is exactly 0. -/
def DistInv (W H : ℕ) (road_flag : Fin W → Fin H → ℤ) (M : ℝ)
    (g : Grid W H) : Prop :=
  ∀ i j, 0 ≤ g i j ∧ g i j ≤ M ∧ (road_flag i j = 1 → g i j = 0)

/-! ### Box corners (`get_box_world_coords`, lines 92-101) -/

/-- Right-multiplication of a row vector by the rotation matrix
`rotM = [[cos yaw, sin yaw], [-sin yaw, cos yaw]]` built in
`get_box_world_coords`: `v @ rotM`. -/
def mulRotM (v : ℝ × ℝ) (yaw : ℝ) : ℝ × ℝ :=
  (v.1 * Real.cos yaw - v.2 * Real.sin yaw,
   v.1 * Real.sin yaw + v.2 * Real.cos yaw)

/-- The fixed corner tensor `[[-1, -1], [-1, 1], [1, 1], [1, -1]]`. -/
def boxBaseCorners : List (ℝ × ℝ) := [(-1, -1), (-1, 1), (1, 1), (1, -1)]

/-- Embedding of `get_box_world_coords(pos, yaw, extent)` (lines 92-101) for a
single box: the base corners are scaled by `0.5 * extent`, then the code
computes `(corners + pos.unsqueeze(-2)) @ rotM` — it adds `pos` to each scaled
corner BEFORE the right-multiplication by `rotM`. -/
def get_box_world_coords (pos : ℝ × ℝ) (yaw : ℝ) (extent : ℝ × ℝ) :
    List (ℝ × ℝ) :=
  let corners := boxBaseCorners.map
    (fun c => (c.1 * 0.5 * extent.1, c.2 * 0.5 * extent.2))
  corners.map (fun c => mulRotM (c.1 + pos.1, c.2 + pos.2) yaw)

/-- Formalisation of the claimed formula of C3 (from the spec's words, for
comparison): scale the base corners, rotate them by `yaw` via `corners @ rotM`,
and only then translate the rotated corners by `pos`. -/
def boxCornersClaimed (pos : ℝ × ℝ) (yaw : ℝ) (extent : ℝ × ℝ) :
    List (ℝ × ℝ) :=
  let corners := boxBaseCorners.map
    (fun c => (c.1 * 0.5 * extent.1, c.2 * 0.5 * extent.2))
  corners.map (fun c => ((mulRotM c yaw).1 + pos.1, (mulRotM c yaw).2 + pos.2))

/-! ### Affine point transform (`batch_nd_transform_points`, lines 111-116) -/

/-- Embedding of `batch_nd_transform_points(points, Mat)` (lines 111-116) for a
single point: `Mat` is transposed, the point is right-multiplied by the
top-left `ndim × ndim` block of the transposed matrix, and the first `ndim`
entries of the transposed matrix's last row are added. -/
def batch_nd_transform_points (n : ℕ) (points : Fin n → ℝ)
    (Mat : Matrix (Fin (n + 1)) (Fin (n + 1)) ℝ) : Fin n → ℝ :=
  let M := Mat.transpose
  fun j => (∑ i : Fin n, points i * M i.castSucc j.castSucc) +
    M (Fin.last n) j.castSucc

/-- Formalisation of the claimed formula of C6 (from the spec's words, for
comparison): right-multiplication by the transpose of the top-left block plus
a translation taken from the first `n` entries of the matrix's LAST ROW. -/
def ndTransformClaimed (n : ℕ) (points : Fin n → ℝ)
    (Mat : Matrix (Fin (n + 1)) (Fin (n + 1)) ℝ) : Fin n → ℝ :=
  fun j => (∑ i : Fin n, points i * Mat j.castSucc i.castSucc) +
    Mat (Fin.last n) j.castSucc

/-! ### Poses, collision metrics and Frenet projection -/

/-- A row of an agent-state array: position `(px, py)` and heading `pyaw`
(indices 0, 1, 2 of the trailing axis). -/
structure Pose where
  px : ℝ
  py : ℝ
  pyaw : ℝ

/-- A row of a size array: `elen = S[..., 0]`, `ewid = S[..., 1]`. -/
structure Extent where
  elen : ℝ
  ewid : ℝ

/-- Embedding of `batch_rotate_2D(xy, theta)` (lines 210-218) when `xy` has a
final axis of length 2 (a batch of 2-D points): each point is rotated by the
matching angle.  The tensor branch (`stack`) and the array branch
(`concatenate` of `x1[..., None]` and `y1[..., None]`) produce the same
pairing in this case. -/
def batch_rotate_2D (xy : List (ℝ × ℝ)) (theta : List ℝ) : List (ℝ × ℝ) :=
  (xy.zip theta).map (fun v =>
    (v.1.1 * Real.cos v.2 - v.1.2 * Real.sin v.2,
     v.1.2 * Real.cos v.2 + v.1.1 * Real.sin v.2))

/-- Embedding of the numpy branch of `batch_rotate_2D` when `xy` is a FLAT 1-D
array, as happens inside the numpy branch of `VEH_VEH_collision`: numpy makes
`xy[..., 0]` and `xy[..., 1]` the scalars `xy[0]` and `xy[1]`, which are then
broadcast against every angle of `theta`. -/
def batch_rotate_2D_flat (xy : List ℝ) (theta : List ℝ) : List (ℝ × ℝ) :=
  theta.map (fun t =>
    (xy.getD 0 0 * Real.cos t - xy.getD 1 0 * Real.sin t,
     xy.getD 1 0 * Real.cos t + xy.getD 0 0 * Real.sin t))

/-- `torch.kron` / `np.kron` of two 1-D arrays: the flattened outer product. -/
def kron1d (s w : List ℝ) : List ℝ := s.flatMap (fun a => w.map (fun b => a * b))

/-- `repeat_interleave(4, dim=-1)` / `np.repeat(..., 4, axis=...)` on a 1-D
batch (or on rows of a 2-D batch): every element is repeated four times. -/
def repeat4 {α : Type} (l : List α) : List α := l.flatMap (fun a => [a, a, a, a])

/-- `torch.min(dis, dim=-1)` / `np.min(dis, axis=-1)` after the `[B, 4]`
reshape of a flat length-`4B` list: minimum over each group of four. -/
def minGroups4 : List ℝ → List ℝ
  | a :: b :: c :: d :: rest => min (min (min a b) c) d :: minGroups4 rest
  | _ => []

/-- Embedding of `PED_PED_collision(p1, p2, S1, S2)` (lines 192-207): Euclidean
centre distance minus half the sum of the two size-0 entries; the tensor and
array branches compute the same formula. -/
def PED_PED_collision (p1 p2 : List Pose) (S1 S2 : List Extent) : List ℝ :=
  ((p1.zip p2).zip (S1.zip S2)).map (fun q =>
    Real.sqrt ((q.1.1.px - q.1.2.px) ^ 2 + (q.1.1.py - q.1.2.py) ^ 2) -
      (q.2.1.elen + q.2.2.elen) / 2)

/-- Embedding of the tensor branch of `VEH_VEH_collision` (lines 224-249) for a
rank-1 batch.  `corners = torch.stack([cornersX, cornersY], dim=-1)` pairs the
X and Y corner offsets elementwise.  `alpha` is accepted but unused (source
defaults: `alpha=5, offsetX=1.0, offsetY=0.3`). -/
def VEH_VEH_collision_torch (p1 p2 : List Pose) (S1 S2 : List Extent)
    (_alpha offsetX offsetY : ℝ) : List ℝ :=
  let cornersX := kron1d (S1.map (fun s => s.elen + offsetX)) [0.5, 0.5, -0.5, -0.5]
  let cornersY := kron1d (S1.map (fun s => s.ewid + offsetY)) [0.5, -0.5, 0.5, -0.5]
  let corners := cornersX.zip cornersY
  let theta1 := repeat4 (p1.map Pose.pyaw)
  let theta2 := repeat4 (p2.map Pose.pyaw)
  let dx := repeat4 ((p1.zip p2).map (fun q => (q.1.px - q.2.px, q.1.py - q.2.py)))
  let delta_x1 := ((batch_rotate_2D corners theta1).zip dx).map
    (fun q => (q.1.1 + q.2.1, q.1.2 + q.2.2))
  let delta_x2 := batch_rotate_2D delta_x1 (theta2.map (fun t => -t))
  let dis := (delta_x2.zip ((repeat4 (S2.map Extent.elen)).zip
      (repeat4 (S2.map Extent.ewid)))).map
    (fun q => max (|q.1.1| - 0.5 * q.2.1) (|q.1.2| - 0.5 * q.2.2))
  minGroups4 dis

/-- Embedding of the numpy branch of `VEH_VEH_collision` (lines 251-267) for a
rank-1 batch.  Unlike the tensor branch, the source builds
`corners = np.concatenate((cornersX, cornersY), axis=-1)` — a FLAT array of
length `8B` whose first half holds X offsets — and then feeds it to
`batch_rotate_2D`, where `corners[..., 0]` and `corners[..., 1]` are the flat
entries `corners[0]` and `corners[1]` (both X offsets of the first batch
element). -/
def VEH_VEH_collision_np (p1 p2 : List Pose) (S1 S2 : List Extent)
    (_alpha offsetX offsetY : ℝ) : List ℝ :=
  let cornersX := kron1d (S1.map (fun s => s.elen + offsetX)) [0.5, 0.5, -0.5, -0.5]
  let cornersY := kron1d (S1.map (fun s => s.ewid + offsetY)) [0.5, -0.5, 0.5, -0.5]
  let corners := cornersX ++ cornersY
  let theta1 := repeat4 (p1.map Pose.pyaw)
  let theta2 := repeat4 (p2.map Pose.pyaw)
  let dx := repeat4 ((p1.zip p2).map (fun q => (q.1.px - q.2.px, q.1.py - q.2.py)))
  let delta_x1 := ((batch_rotate_2D_flat corners theta1).zip dx).map
    (fun q => (q.1.1 + q.2.1, q.1.2 + q.2.2))
  let delta_x2 := batch_rotate_2D delta_x1 (theta2.map (fun t => -t))
  let dis := (delta_x2.zip ((repeat4 (S2.map Extent.elen)).zip
      (repeat4 (S2.map Extent.ewid)))).map
    (fun q => max (|q.1.1| - 0.5 * q.2.1) (|q.1.2| - 0.5 * q.2.2))
  minGroups4 dis

/-- Embedding of `VEH_PED_collision(p1, p2, S1, S2)` (lines 272-295): the
pedestrian's relative position is rotated into the vehicle frame by `-theta`;
BOTH axis gaps subtract half of `S2[..., 0]`.  The tensor branch additionally
computes an unused, detached `mask`, which does not affect the result, so the
two branches agree. -/
def VEH_PED_collision (p1 p2 : List Pose) (S1 S2 : List Extent) : List ℝ :=
  let theta := p1.map Pose.pyaw
  let dx := batch_rotate_2D
    ((p2.zip p1).map (fun q => (q.1.px - q.2.px, q.1.py - q.2.py)))
    (theta.map (fun t => -t))
  (dx.zip (S1.zip S2)).map (fun q =>
    max (|q.1.1| - q.2.1.elen / 2 - q.2.2.elen / 2)
        (|q.1.2| - q.2.1.ewid / 2 - q.2.2.elen / 2))

/-- Embedding of `PED_VEH_collision(p1, p2, S1, S2)` (lines 298-299):
an argument-swap adapter around `VEH_PED_collision`. -/
def PED_VEH_collision (p1 p2 : List Pose) (S1 S2 : List Extent) : List ℝ :=
  VEH_PED_collision p2 p1 S2 S1

/-- `np.min` of a 1-D array (0 for the empty array, which numpy rejects). -/
def listMin : List ℝ → ℝ
  | [] => 0
  | [a] => a
  | a :: b :: rest => min a (listMin (b :: rest))

/-- `np.argmin` / `torch.argmin` of a 1-D array: index of the first minimum. -/
def argminIdx : List ℝ → ℕ
  | [] => 0
  | [_] => 0
  | a :: b :: rest => if a ≤ listMin (b :: rest) then 0 else argminIdx (b :: rest) + 1

/-- The distances `np.linalg.norm(line[..., 0:2] - x[..., 0:2], axis=-1)` from
one pose to every waypoint of its polyline row. -/
def lineDis (p : Pose) (row : List Pose) : List ℝ :=
  row.map (fun q => Real.sqrt ((q.px - p.px) ^ 2 + (q.py - p.py) ^ 2))

/-- Embedding of the array branch of `batch_proj(x, line)` (lines 339-363) for
a rank-1 batch: for each batch element the nearest waypoint (first argmin of
the Euclidean distances) supplies the frame heading `line_min[..., 2]`;
`ds` and `dn` hold, for EVERY waypoint `k`, the offset `x - line[k]` rotated
into that single frame (`dx = x[..., None, 0] - line[..., 0]` has a trailing
axis over the `N` waypoints), and `dyaw` is the normalised heading deviation
with a trailing singleton axis.  The tensor branch (lines 306-338) computes
the same quantities. -/
def batch_proj_np (x : List Pose) (line : List (List Pose)) :
    List (List ℝ) × List (List ℝ) × List (List ℝ) :=
  let line_min := (x.zip line).map (fun q =>
    q.2.getD (argminIdx (lineDis q.1 q.2)) ⟨0, 0, 0⟩)
  let ds := ((x.zip line).zip line_min).map (fun q =>
    q.1.2.map (fun w => (q.1.1.px - w.px) * Real.cos q.2.pyaw +
      (q.1.1.py - w.py) * Real.sin q.2.pyaw))
  let dn := ((x.zip line).zip line_min).map (fun q =>
    q.1.2.map (fun w => -(q.1.1.px - w.px) * Real.sin q.2.pyaw +
      (q.1.1.py - w.py) * Real.cos q.2.pyaw))
  let dyaw := (x.zip line_min).map (fun q => [round_2pi (q.1.pyaw - q.2.pyaw)])
  (ds, dn, dyaw)

/-- Total number of scalar entries in a nested-list 2-D array (the number of
scalars a `[B]`-shaped result would have to carry is `B`; a `[B, N]`-shaped
result carries `B * N`). -/
def totalCount (m : List (List ℝ)) : ℕ := (m.map List.length).sum

/-! ### Container-kind dispatch (`isinstance` chains) -/

/-- The dynamic container kind of a primary input, as tested by the
`isinstance(..., torch.Tensor)` / `isinstance(..., np.ndarray)` chain;
`other` is any third, unsupported kind. -/
inductive NumIn (α : Type) where
  | tensor (a : α)
  | ndarray (a : α)
  | other

/-- Outcome of a Python call: a returned value, the implicit `None` returned
when control falls off the end of the function body, or a raised
`NotImplementedError`. -/
inductive PyOutcome (β : Type) where
  | returns (b : β)
  | returnsNone
  | raisesNotImplemented

/-- Dispatch of `batch_rotate_2D` (lines 210-218) on the container kind of
`xy`: tensor and array branches return; there is no `else`, so any other kind
falls off the end of the function and Python returns `None`. -/
def batch_rotate_2D_dyn (xy : NumIn (List (ℝ × ℝ))) (theta : List ℝ) :
    PyOutcome (List (ℝ × ℝ)) :=
  match xy with
  | .tensor a => .returns (batch_rotate_2D a theta)
  | .ndarray a => .returns (batch_rotate_2D a theta)
  | .other => .returnsNone

/-- Dispatch of `batch_proj` (lines 302-363) on the container kind of `x`:
the tensor branch (306-338) and the array branch (339-363) compute the same
quantities; there is no `else`, so any other kind returns `None`. -/
def batch_proj_dyn (x : NumIn (List Pose)) (line : List (List Pose)) :
    PyOutcome (List (List ℝ) × List (List ℝ) × List (List ℝ)) :=
  match x with
  | .tensor a => .returns (batch_proj_np a line)
  | .ndarray a => .returns (batch_proj_np a line)
  | .other => .returnsNone

/-- Dispatch of `PED_PED_collision` (lines 192-207): unsupported container
kinds hit the `raise NotImplementedError` branch. -/
def PED_PED_collision_dyn (p1 : NumIn (List Pose)) (p2 : List Pose)
    (S1 S2 : List Extent) : PyOutcome (List ℝ) :=
  match p1 with
  | .tensor a => .returns (PED_PED_collision a p2 S1 S2)
  | .ndarray a => .returns (PED_PED_collision a p2 S1 S2)
  | .other => .raisesNotImplemented

/-- Dispatch of `VEH_VEH_collision` (lines 221-269): the tensor and numpy
branches differ (see the two embeddings); unsupported kinds raise. -/
def VEH_VEH_collision_dyn (p1 : NumIn (List Pose)) (p2 : List Pose)
    (S1 S2 : List Extent) (alpha offsetX offsetY : ℝ) : PyOutcome (List ℝ) :=
  match p1 with
  | .tensor a => .returns (VEH_VEH_collision_torch a p2 S1 S2 alpha offsetX offsetY)
  | .ndarray a => .returns (VEH_VEH_collision_np a p2 S1 S2 alpha offsetX offsetY)
  | .other => .raisesNotImplemented

/-- Dispatch of `VEH_PED_collision` (lines 272-295): unsupported kinds raise. -/
def VEH_PED_collision_dyn (p1 : NumIn (List Pose)) (p2 : List Pose)
    (S1 S2 : List Extent) : PyOutcome (List ℝ) :=
  match p1 with
  | .tensor a => .returns (VEH_PED_collision a p2 S1 S2)
  | .ndarray a => .returns (VEH_PED_collision a p2 S1 S2)
  | .other => .raisesNotImplemented

/-- Dispatch of `PED_VEH_collision` (lines 298-299): it delegates to
`VEH_PED_collision(p2, p1, S2, S1)`, which dispatches on `p2`. -/
def PED_VEH_collision_dyn (p1 : List Pose) (p2 : NumIn (List Pose))
    (S1 S2 : List Extent) : PyOutcome (List ℝ) :=
  VEH_PED_collision_dyn p2 p1 S2 S1

/-! ### Shape validation of `transform_points_tensor` (lines 119-189) -/

/-- A fragment of an error message raised by `transform_points_tensor`: either
literal text, or one of the interpolated shape logs `points_log` /
`matrix_log` (which name the points shape and the matrix shape). -/
inductive MsgTok where
  | lit (s : String)
  | pointsShape (s : List ℕ)
  | matrixShape (s : List ℕ)
deriving DecidableEq

/-- An error message: the list of fragments concatenated by the f-strings. -/
abbrev ErrMsg := List MsgTok

/-- Shape-level embedding of `transform_points_tensor(points, transf_matrix)`
(lines 119-189): the `assert` statements (141-166) and the rank dispatch
(176-189) in source order, evaluated before any arithmetic; on success the
output shape equals the points shape. -/
def transform_points_tensor_shape (points transf_matrix : List ℕ) :
    Except ErrMsg (List ℕ) :=
  if ¬(points.length = 2 ∨ points.length = 3) then
    .error [.lit ("points should have ndim in [2,3],"), .pointsShape points]
  else if ¬(transf_matrix.length = 2 ∨ transf_matrix.length = 3) then
    .error [.lit ("matrix should have ndim in [2,3],"), .matrixShape transf_matrix]
  else if ¬(transf_matrix.length ≤ points.length) then
    .error [.lit ("points ndim should be >= than matrix,"),
      .pointsShape points, .matrixShape transf_matrix]
  else if ¬(points.getLastD 0 = 2 ∨ points.getLastD 0 = 3) then
    .error [.lit ("last points dimension must be 2 or 3,"), .pointsShape points]
  else if ¬(transf_matrix.getLastD 0 = transf_matrix.getD (transf_matrix.length - 2) 0) then
    .error [.lit ("matrix should be a square matrix,"), .matrixShape transf_matrix]
  else if ¬(transf_matrix.getLastD 0 = 3 ∨ transf_matrix.getLastD 0 = 4) then
    .error [.lit ("last matrix dimension must be 3 or 4,"), .matrixShape transf_matrix]
  else if ¬(points.getLastD 0 = transf_matrix.getLastD 0 - 1) then
    .error [.lit ("points last dim should be one less than matrix,"),
      .pointsShape points, .matrixShape transf_matrix]
  else if points.length = 2 ∧ transf_matrix.length = 2 then .ok points
  else if points.length = 3 ∧ transf_matrix.length = 3 then .ok points
  else if points.length = 3 ∧ transf_matrix.length = 2 then .ok points
  else .error [.lit ("unsupported case!"), .pointsShape points, .matrixShape transf_matrix]

/-- The conjunction of all shape conditions checked by the `assert` statements
of `transform_points_tensor` (the supported rank combinations are implied by
the first three conditions). -/
abbrev validTPShapes (points transf_matrix : List ℕ) : Prop :=
  (points.length = 2 ∨ points.length = 3) ∧
  (transf_matrix.length = 2 ∨ transf_matrix.length = 3) ∧
  transf_matrix.length ≤ points.length ∧
  (points.getLastD 0 = 2 ∨ points.getLastD 0 = 3) ∧
  transf_matrix.getLastD 0 = transf_matrix.getD (transf_matrix.length - 2) 0 ∧
  (transf_matrix.getLastD 0 = 3 ∨ transf_matrix.getLastD 0 = 4) ∧
  points.getLastD 0 = transf_matrix.getLastD 0 - 1

/-! ### Theorems -/

/-- Helper: `round_2pi x` rewritten through `Int.fract`. -/
theorem round_2pi_eq_fract (x : ℝ) :
    round_2pi x = 2 * π * Int.fract ((x + π) / (2 * π)) - π := by
  have h2π : (2 * π) ≠ 0 := by positivity
  unfold round_2pi Int.fract
  field_simp

/-- C1 (counterexample): at the boundary input `x = π` the normaliser returns
`-π`, which is not in the half-open interval `(-π, π]` that the claim asserts. -/
theorem round_2pi_pi_not_mem_Ioc :
    round_2pi π = -π ∧ round_2pi π ∉ Set.Ioc (-π) π := by
  have h2π : (2 * π) ≠ 0 := by positivity
  have hval : round_2pi π = -π := by
    unfold round_2pi
    have h1 : (π + π) / (2 * π) = 1 := by
      rw [div_eq_one_iff_eq h2π]; ring
    rw [h1]
    norm_num
    ring
  refine ⟨hval, ?_⟩
  rw [hval]
  intro h
  exact lt_irrefl _ h.1

/-- C1 (amended): for every real `x`, `round_2pi x` equals
`((x + π) mod 2π) - π` with the floor-convention modulus, and the result lies
in the half-open interval `[-π, π)` (so `x = π` maps to `-π`, not `π`). -/
theorem round_2pi_mem_Ico (x : ℝ) : round_2pi x ∈ Set.Ico (-π) π := by
  have hπ : (0 : ℝ) < 2 * π := by positivity
  rw [round_2pi_eq_fract]
  constructor
  · have h0 : 0 ≤ Int.fract ((x + π) / (2 * π)) := Int.fract_nonneg _
    nlinarith
  · have h1 : Int.fract ((x + π) / (2 * π)) < 1 := Int.fract_lt_one _
    nlinarith

/-- Helper: one `min`-with-neighbour update preserves the invariant at a cell. -/
theorem distInv_min {W H : ℕ} {road_flag : Fin W → Fin H → ℤ} {M : ℝ}
    {g : Grid W H} (h : DistInv W H road_flag M g)
    (i i' : Fin W) (j j' : Fin H) :
    0 ≤ min (g i j) (g i' j' + 1) ∧ min (g i j) (g i' j' + 1) ≤ M ∧
      (road_flag i j = 1 → min (g i j) (g i' j' + 1) = 0) := by
  obtain ⟨h0, hM, hz⟩ := h i j
  have h0' : 0 ≤ g i' j' := (h i' j').1
  refine ⟨le_min h0 (by linarith), le_trans (min_le_left _ _) hM, fun hr => ?_⟩
  rw [hz hr]
  exact min_eq_left (by linarith)

/-- Helper: the first sweep preserves the invariant. -/
theorem distInv_sweepRowInc {W H : ℕ} {road_flag : Fin W → Fin H → ℤ} {M : ℝ}
    {g : Grid W H} (h : DistInv W H road_flag M g) :
    DistInv W H road_flag M (sweepRowInc g) := by
  intro i j
  unfold sweepRowInc
  split
  · exact distInv_min h i _ j j
  · exact h i j

/-- Helper: the second sweep preserves the invariant. -/
theorem distInv_sweepRowDec {W H : ℕ} {road_flag : Fin W → Fin H → ℤ} {M : ℝ}
    {g : Grid W H} (h : DistInv W H road_flag M g) :
    DistInv W H road_flag M (sweepRowDec g) := by
  intro i j
  unfold sweepRowDec
  split
  · exact distInv_min h i _ j j
  · exact h i j

/-- Helper: the third sweep preserves the invariant. -/
theorem distInv_sweepColInc {W H : ℕ} {road_flag : Fin W → Fin H → ℤ} {M : ℝ}
    {g : Grid W H} (h : DistInv W H road_flag M g) :
    DistInv W H road_flag M (sweepColInc g) := by
  intro i j
  unfold sweepColInc
  split
  · exact distInv_min h i i j _
  · exact h i j

/-- Helper: the fourth sweep preserves the invariant. -/
theorem distInv_sweepColDec {W H : ℕ} {road_flag : Fin W → Fin H → ℤ} {M : ℝ}
    {g : Grid W H} (h : DistInv W H road_flag M g) :
    DistInv W H road_flag M (sweepColDec g) := by
  intro i j
  unfold sweepColDec
  split
  · exact distInv_min h i i j _
  · exact h i j

/-- Helper: a full four-sweep iteration preserves the invariant. -/
theorem distInv_relaxOnce {W H : ℕ} {road_flag : Fin W → Fin H → ℤ} {M : ℝ}
    {g : Grid W H} (h : DistInv W H road_flag M g) :
    DistInv W H road_flag M (relaxOnce g) :=
  distInv_sweepColDec (distInv_sweepColInc (distInv_sweepRowDec
    (distInv_sweepRowInc h)))

/-- Helper: any number of relaxation iterations preserves the invariant. -/
theorem distInv_iterate {W H : ℕ} {road_flag : Fin W → Fin H → ℤ} {M : ℝ}
    {g : Grid W H} (h : DistInv W H road_flag M g) (n : ℕ) :
    DistInv W H road_flag M (relaxOnce^[n] g) := by
  induction n with
  | zero => simpa using h
  | succ n ih =>
    rw [Function.iterate_succ_apply']
    exact distInv_relaxOnce ih

/-- Helper: the initial map satisfies the invariant with bound `max_dis`. -/
theorem distInv_init (W H : ℕ) (road_flag : Fin W → Fin H → ℤ) (max_dis : ℕ) :
    DistInv W H road_flag (max_dis : ℝ) (initDistanceMap W H road_flag max_dis) := by
  intro i j
  unfold initDistanceMap
  have hM : (0 : ℝ) ≤ (max_dis : ℝ) := Nat.cast_nonneg _
  by_cases h1 : road_flag i j = 1
  · simp [h1, hM]
  · by_cases h0 : road_flag i j = 0 <;> simp [h1, h0, hM]

/-- C9: for every strict 0/1 mask and every `max_dis ≥ 1`, every cell of the
distance field returned by `calc_distance_map` lies in `[0, max_dis]`. -/
theorem calc_distance_map_mem_Icc (W H : ℕ) (road_flag : Fin W → Fin H → ℤ)
    (max_dis : ℕ) (_hmask : ∀ i j, road_flag i j = 0 ∨ road_flag i j = 1)
    (_hmax : 1 ≤ max_dis) :
    ∀ i j, calc_distance_map W H road_flag max_dis i j ∈
      Set.Icc (0 : ℝ) (max_dis : ℝ) := by
  intro i j
  have h := distInv_iterate (distInv_init W H road_flag max_dis) (max_dis - 1) i j
  exact ⟨h.1, h.2.1⟩

/-- C9 (witness): on the all-drivable `1 × 1` grid with `max_dis = 1` the
single cell of the distance field lies in `[0, 1]`. -/
theorem calc_distance_map_mem_Icc_witness :
    calc_distance_map 1 1 (fun _ _ => 1) 1 0 0 ∈ Set.Icc (0 : ℝ) ((1 : ℕ) : ℝ) :=
  calc_distance_map_mem_Icc 1 1 (fun _ _ => 1) 1 (fun _ _ => Or.inr rfl)
    (le_refl 1) 0 0

/-- C10: for every strict 0/1 mask and every `max_dis ≥ 1`, every drivable cell
(mask value 1) has value exactly 0 in the output of `calc_distance_map`. -/
theorem calc_distance_map_drivable_zero (W H : ℕ)
    (road_flag : Fin W → Fin H → ℤ) (max_dis : ℕ)
    (_hmask : ∀ i j, road_flag i j = 0 ∨ road_flag i j = 1)
    (_hmax : 1 ≤ max_dis) :
    ∀ i j, road_flag i j = 1 → calc_distance_map W H road_flag max_dis i j = 0 := by
  intro i j hr
  exact (distInv_iterate (distInv_init W H road_flag max_dis) (max_dis - 1) i j).2.2 hr

/-- C10 (witness): on the all-drivable `2 × 2` grid with `max_dis = 3` the
cell `(0, 0)` is drivable and its output value is exactly 0. -/
theorem calc_distance_map_drivable_zero_witness :
    calc_distance_map 2 2 (fun _ _ => 1) 3 0 0 = 0 :=
  calc_distance_map_drivable_zero 2 2 (fun _ _ => 1) 3 (fun _ _ => Or.inr rfl)
    (by norm_num) 0 0 rfl

/-- C3 (counterexample): for `pos = (1,0)`, `yaw = π/2`, `extent = (2,2)` the
code's output (translate before rotate) differs from the claimed
rotate-then-translate formula: the first corner is `(1, 0)` in the code but
`(2, -1)` under the claim. -/
theorem get_box_world_coords_ne_claimed :
    get_box_world_coords (1, 0) (π / 2) (2, 2) ≠
      boxCornersClaimed (1, 0) (π / 2) (2, 2) := by
  intro h
  have h0 := congrArg (fun l => (l.headD (0, 0)).1) h
  simp [get_box_world_coords, boxCornersClaimed, mulRotM, boxBaseCorners,
    Real.cos_pi_div_two, Real.sin_pi_div_two] at h0

/-- C3 (amended): `get_box_world_coords` scales the unit-square corners
(ordered `(-,-), (-,+), (+,+), (+,-)`) by `0.5 * extent`, but translates by
`pos` BEFORE rotating, so each output corner equals the rotated corner plus the
ROTATED position: `c @ R + pos @ R`, not `c @ R + pos`. -/
theorem get_box_world_coords_eq_rotated_pos (pos : ℝ × ℝ) (yaw : ℝ)
    (extent : ℝ × ℝ) :
    get_box_world_coords pos yaw extent =
      (boxBaseCorners.map
        (fun c => (c.1 * 0.5 * extent.1, c.2 * 0.5 * extent.2))).map
        (fun c => ((mulRotM c yaw).1 + (mulRotM pos yaw).1,
                   (mulRotM c yaw).2 + (mulRotM pos yaw).2)) := by
  simp only [get_box_world_coords, boxBaseCorners, List.map_cons, List.map_nil,
    mulRotM, List.cons.injEq, Prod.mk.injEq, and_true]
  and_intros <;> ring

/-- C6 (counterexample): with the affine matrix `[[1,0,5],[0,1,7],[0,0,1]]`
(translation `(5,7)` in the last COLUMN, last row `[0,0,1]`) and the point
`(0,0)`, the code returns `(5,7)` while the claimed last-ROW translation
formula returns `(0,0)`. -/
theorem batch_nd_transform_points_ne_claimed :
    batch_nd_transform_points 2 ![0, 0] !![1, 0, 5; 0, 1, 7; 0, 0, 1] ≠
      ndTransformClaimed 2 ![0, 0] !![1, 0, 5; 0, 1, 7; 0, 0, 1] := by
  intro h
  have h0 := congrFun h 0
  simp [batch_nd_transform_points, ndTransformClaimed, Fin.sum_univ_two,
    Matrix.transpose_apply, Matrix.vecHead, Matrix.vecTail, Fin.last] at h0

/-- C6 (amended): `batch_nd_transform_points` right-multiplies the point by
the transpose of the matrix's top-left `n × n` block and adds the translation
taken from the first `n` entries of the matrix's LAST COLUMN; consequently the
matrix's last row does not contribute to the result. -/
theorem batch_nd_transform_points_eq_lastCol (n : ℕ) (points : Fin n → ℝ)
    (Mat Mat' : Matrix (Fin (n + 1)) (Fin (n + 1)) ℝ)
    (hagree : ∀ i j, i ≠ Fin.last n → Mat i j = Mat' i j) :
    batch_nd_transform_points n points Mat =
      (fun j => (∑ i : Fin n, points i * Mat j.castSucc i.castSucc) +
        Mat j.castSucc (Fin.last n)) ∧
    batch_nd_transform_points n points Mat =
      batch_nd_transform_points n points Mat' := by
  have hrow : ∀ j : Fin n, j.castSucc ≠ Fin.last n :=
    fun j => ne_of_lt (Fin.castSucc_lt_last j)
  constructor
  · funext j
    simp [batch_nd_transform_points, Matrix.transpose_apply]
  · funext j
    simp only [batch_nd_transform_points, Matrix.transpose_apply]
    simp only [show ∀ y, Mat j.castSucc y = Mat' j.castSucc y from
      fun y => hagree _ y (hrow j)]

/-- C6 (witness): the amended theorem instantiated at the point `(1,2)` and two
matrices that differ only in the last row. -/
theorem batch_nd_transform_points_eq_lastCol_witness :
    batch_nd_transform_points 2 ![1, 2] !![1, 0, 5; 0, 1, 7; 0, 0, 1] =
      (fun j => (∑ i : Fin 2, ![1, 2] i *
        !![1, 0, 5; 0, 1, 7; 0, 0, 1] j.castSucc i.castSucc) +
        !![1, 0, 5; 0, 1, 7; 0, 0, 1] j.castSucc (Fin.last 2)) ∧
    batch_nd_transform_points 2 ![1, 2] !![1, 0, 5; 0, 1, 7; 0, 0, 1] =
      batch_nd_transform_points 2 ![1, 2] !![1, 0, 5; 0, 1, 7; 9, 9, 9] :=
  batch_nd_transform_points_eq_lastCol 2 ![1, 2]
    !![1, 0, 5; 0, 1, 7; 0, 0, 1] !![1, 0, 5; 0, 1, 7; 9, 9, 9]
    (by
      intro i j hi
      fin_cases i <;> fin_cases j <;> simp_all [Fin.last])

/-- C7 (counterexample): for points of rank 1 (shape `[5]`) and a valid `3 × 3`
matrix, the raised message is the first failing `assert`'s message, which names
the points shape but NOT the matrix shape. -/
theorem transform_points_tensor_shape_single_shape_message :
    transform_points_tensor_shape [5] [3, 3] =
      .error [.lit ("points should have ndim in [2,3],"), .pointsShape [5]] ∧
    MsgTok.matrixShape [3, 3] ∉
      [MsgTok.lit ("points should have ndim in [2,3],"), MsgTok.pointsShape [5]] :=
  ⟨rfl, by decide⟩

set_option maxHeartbeats 1600000 in
/-- C7 (amended): whenever the shape contract is violated,
`transform_points_tensor` raises eagerly before any computation, and the error
message names the shape of at least one offending operand (the single-operand
rank/size checks name only that operand's shape; the cross-operand checks name
both). -/
theorem transform_points_tensor_shape_error (points transf_matrix : List ℕ)
    (h : ¬ validTPShapes points transf_matrix) :
    ∃ e, transform_points_tensor_shape points transf_matrix = .error e ∧
      (MsgTok.pointsShape points ∈ e ∨ MsgTok.matrixShape transf_matrix ∈ e) := by
  unfold transform_points_tensor_shape
  split_ifs <;>
    first
      | exact ⟨_, rfl, Or.inl (List.mem_cons_of_mem _ (List.mem_cons_self _ _))⟩
      | exact ⟨_, rfl, Or.inr (List.mem_cons_of_mem _ (List.mem_cons_self _ _))⟩
      | exact ⟨_, rfl, Or.inr (List.mem_cons_of_mem _ (List.mem_cons_of_mem _
          (List.mem_cons_self _ _)))⟩
      | exact (h (by tauto)).elim

/-- C7 (witness): the amended theorem at rank-1 points `[5]` and matrix
`[3, 3]`. -/
theorem transform_points_tensor_shape_error_witness :
    ¬ validTPShapes [5] [3, 3] ∧
    (∃ e, transform_points_tensor_shape [5] [3, 3] = .error e ∧
      (MsgTok.pointsShape [5] ∈ e ∨ MsgTok.matrixShape [3, 3] ∈ e)) :=
  ⟨by decide, transform_points_tensor_shape_error [5] [3, 3] (by decide)⟩

/-- C8 (counterexample): `batch_proj` and `batch_rotate_2D` called with an
unsupported container kind fall off the end of the `isinstance` chain and
return Python `None` — they do not raise. -/
theorem batch_proj_unsupported_returns_none :
    batch_proj_dyn NumIn.other [] = PyOutcome.returnsNone ∧
    batch_rotate_2D_dyn NumIn.other [] = PyOutcome.returnsNone ∧
    (PyOutcome.returnsNone : PyOutcome (List (ℝ × ℝ))) ≠
      PyOutcome.raisesNotImplemented :=
  ⟨rfl, rfl, fun h => PyOutcome.noConfusion h⟩

/-- C8 (amended): on an unsupported container kind the three collision
functions with an `else` branch (`PED_PED_collision`, `VEH_VEH_collision`,
`VEH_PED_collision`, and `PED_VEH_collision` through its adapter) raise
`NotImplementedError`, but `batch_proj` and `batch_rotate_2D` have no `else`
branch and return `None` instead of raising. -/
theorem unsupported_container_dispatch (p2 : List Pose) (S1 S2 : List Extent)
    (line : List (List Pose)) (theta : List ℝ) (alpha offsetX offsetY : ℝ) :
    PED_PED_collision_dyn NumIn.other p2 S1 S2 = PyOutcome.raisesNotImplemented ∧
    VEH_VEH_collision_dyn NumIn.other p2 S1 S2 alpha offsetX offsetY =
      PyOutcome.raisesNotImplemented ∧
    VEH_PED_collision_dyn NumIn.other p2 S1 S2 = PyOutcome.raisesNotImplemented ∧
    PED_VEH_collision_dyn p2 NumIn.other S1 S2 = PyOutcome.raisesNotImplemented ∧
    batch_proj_dyn NumIn.other line = PyOutcome.returnsNone ∧
    batch_rotate_2D_dyn NumIn.other theta = PyOutcome.returnsNone :=
  ⟨rfl, rfl, rfl, rfl, rfl, rfl⟩

/-- C2: the tensor and numpy branches of `VEH_VEH_collision` disagree on equal
inputs.  At `p1 = (0,0,0)`, `p2 = (0,10,0)`, `S1 = S2 = (2,1)` and the default
parameters `alpha=5, offsetX=1.0, offsetY=0.3`, the tensor branch returns
`[8.85]` while the numpy branch — whose `np.concatenate` builds a flat corner
array that `batch_rotate_2D` misreads — returns `[8.0]`. -/
theorem VEH_VEH_collision_paths_differ :
    VEH_VEH_collision_torch [⟨0, 0, 0⟩] [⟨0, 10, 0⟩] [⟨2, 1⟩] [⟨2, 1⟩] 5 1 0.3 =
      [8.85] ∧
    VEH_VEH_collision_np [⟨0, 0, 0⟩] [⟨0, 10, 0⟩] [⟨2, 1⟩] [⟨2, 1⟩] 5 1 0.3 =
      [8.0] ∧
    (8.85 : ℝ) ≠ 8.0 := by
  refine ⟨?_, ?_, by norm_num⟩ <;>
    · norm_num [VEH_VEH_collision_torch, VEH_VEH_collision_np, kron1d, repeat4,
        batch_rotate_2D, batch_rotate_2D_flat, minGroups4, List.zip,
        List.zipWith, List.flatMap, neg_zero, Real.cos_zero, Real.sin_zero,
        abs_of_nonneg, abs_of_nonpos, max_def, min_def]

/-- Helper: the minimum of a list of nonnegative reals is nonnegative. -/
theorem listMin_nonneg : ∀ (l : List ℝ), (∀ a ∈ l, 0 ≤ a) → 0 ≤ listMin l
  | [], _ => le_refl 0
  | [a], h => h a (List.mem_cons_self a [])
  | a :: b :: rest, h => by
    simp only [listMin]
    exact le_min (h a (List.mem_cons_self _ _))
      (listMin_nonneg (b :: rest) (fun y hy => h y (List.mem_cons_of_mem _ hy)))

/-- Helper: `listMin` commutes with `Real.sqrt` (square roots are monotone). -/
theorem listMin_map_sqrt : ∀ (l : List ℝ),
    listMin (l.map Real.sqrt) = Real.sqrt (listMin l)
  | [] => by simp [listMin]
  | [a] => by simp [listMin]
  | a :: b :: rest => by
    have ih := listMin_map_sqrt (b :: rest)
    simp only [List.map_cons] at ih ⊢
    simp only [listMin, ih]
    have hmono : Monotone Real.sqrt := fun _ _ hab => Real.sqrt_le_sqrt hab
    exact (hmono.map_min).symm

/-- Helper: taking square roots of a list of nonnegative reals does not change
the position of the first minimum, so `argmin` over Euclidean norms equals
`argmin` over squared norms. -/
theorem argminIdx_map_sqrt : ∀ (l : List ℝ), (∀ a ∈ l, 0 ≤ a) →
    argminIdx (l.map Real.sqrt) = argminIdx l
  | [], _ => rfl
  | [_], _ => rfl
  | a :: b :: rest, h => by
    have htail : ∀ y ∈ b :: rest, 0 ≤ y :=
      fun y hy => h y (List.mem_cons_of_mem _ hy)
    have hm : 0 ≤ listMin (b :: rest) := listMin_nonneg (b :: rest) htail
    have ih := argminIdx_map_sqrt (b :: rest) htail
    have hms := listMin_map_sqrt (b :: rest)
    simp only [List.map_cons] at ih hms ⊢
    simp only [argminIdx, ih, hms, Real.sqrt_le_sqrt_iff hm]

/-- C4 (amended): for aligned batches (`line` has one row of `N` waypoints per
pose), `ds` and `dn` have shape `batch × N` — one value per polyline point,
not per pose — and `dyaw` has shape `batch × 1`. -/
theorem batch_proj_np_shapes (x : List Pose) (line : List (List Pose)) (N : ℕ)
    (hlen : line.length = x.length) (hrows : ∀ r ∈ line, r.length = N) :
    (batch_proj_np x line).1.length = x.length ∧
    (∀ r ∈ (batch_proj_np x line).1, r.length = N) ∧
    (batch_proj_np x line).2.1.length = x.length ∧
    (∀ r ∈ (batch_proj_np x line).2.1, r.length = N) ∧
    (batch_proj_np x line).2.2.length = x.length ∧
    (∀ r ∈ (batch_proj_np x line).2.2, r.length = 1) := by
  refine ⟨?_, ?_, ?_, ?_, ?_, ?_⟩
  · simp [batch_proj_np, hlen]
  · intro r hr
    simp only [batch_proj_np, List.mem_map] at hr
    obtain ⟨⟨⟨p, row⟩, lm⟩, hq, rfl⟩ := hr
    rw [List.length_map]
    exact hrows row (List.of_mem_zip (List.of_mem_zip hq).1).2
  · simp [batch_proj_np, hlen]
  · intro r hr
    simp only [batch_proj_np, List.mem_map] at hr
    obtain ⟨⟨⟨p, row⟩, lm⟩, hq, rfl⟩ := hr
    rw [List.length_map]
    exact hrows row (List.of_mem_zip (List.of_mem_zip hq).1).2
  · simp [batch_proj_np, hlen]
  · intro r hr
    simp only [batch_proj_np, List.mem_map] at hr
    obtain ⟨⟨p, lm⟩, hq, rfl⟩ := hr
    rfl

/-- C4 (witness): the amended shape theorem at one pose and a two-waypoint
polyline. -/
theorem batch_proj_np_shapes_witness :
    ([[(⟨0, 0, 0⟩ : Pose), ⟨1, 0, 0⟩]] : List (List Pose)).length =
      ([(⟨5, 2, 0⟩ : Pose)] : List Pose).length ∧
    ((batch_proj_np [⟨5, 2, 0⟩] [[⟨0, 0, 0⟩, ⟨1, 0, 0⟩]]).1.length = 1 ∧
     (∀ r ∈ (batch_proj_np [⟨5, 2, 0⟩] [[⟨0, 0, 0⟩, ⟨1, 0, 0⟩]]).1, r.length = 2) ∧
     (batch_proj_np [⟨5, 2, 0⟩] [[⟨0, 0, 0⟩, ⟨1, 0, 0⟩]]).2.1.length = 1 ∧
     (∀ r ∈ (batch_proj_np [⟨5, 2, 0⟩] [[⟨0, 0, 0⟩, ⟨1, 0, 0⟩]]).2.1, r.length = 2) ∧
     (batch_proj_np [⟨5, 2, 0⟩] [[⟨0, 0, 0⟩, ⟨1, 0, 0⟩]]).2.2.length = 1 ∧
     (∀ r ∈ (batch_proj_np [⟨5, 2, 0⟩] [[⟨0, 0, 0⟩, ⟨1, 0, 0⟩]]).2.2, r.length = 1)) :=
  ⟨rfl, batch_proj_np_shapes [⟨5, 2, 0⟩] [[⟨0, 0, 0⟩, ⟨1, 0, 0⟩]] 2 rfl
    (by simp)⟩

/-- C4 (counterexample): with one pose and a polyline of `N = 2` waypoints, the
`ds` component of `batch_proj` carries 2 scalars, not the 1 scalar a
batch-shaped (`[B] = [1]`) result would carry: `ds` has an extra trailing
dimension over the waypoints. -/
theorem batch_proj_np_ds_not_batch_shaped :
    totalCount (batch_proj_np [⟨5, 2, 0⟩] [[⟨0, 0, 0⟩, ⟨1, 0, 0⟩]]).1 = 2 ∧
    ([(⟨5, 2, 0⟩ : Pose)] : List Pose).length = 1 ∧ (2 : ℕ) ≠ 1 := by
  refine ⟨?_, rfl, by norm_num⟩
  simp [batch_proj_np, totalCount]

/-- Helper: the normaliser fixes `π/4`. -/
theorem round_2pi_pi_div_four : round_2pi (π / 4) = π / 4 := by
  have hπ : π ≠ 0 := Real.pi_ne_zero
  have hq : (π / 4 + π) / (2 * π) = 5 / 8 := by
    field_simp
    ring
  unfold round_2pi
  rw [hq]
  have h0 : ⌊(5 / 8 : ℝ)⌋ = 0 := by
    rw [Int.floor_eq_zero_iff]
    norm_num [Set.mem_Ico]
  rw [h0]
  push_cast
  ring

/-- C5 (counterexample): on the straight polyline `(0,0) … (10,0)` with heading
0 everywhere and pose `(5, 2, π/4)`, `batch_proj` does not return the scalars
`ds = 5, dn = 2` claimed: its `ds` row has one entry per waypoint (11 of
them), not a single value. -/
theorem batch_proj_np_straight_line_not_scalar :
    batch_proj_np [⟨5, 2, π / 4⟩]
      [[⟨0, 0, 0⟩, ⟨1, 0, 0⟩, ⟨2, 0, 0⟩, ⟨3, 0, 0⟩, ⟨4, 0, 0⟩, ⟨5, 0, 0⟩,
        ⟨6, 0, 0⟩, ⟨7, 0, 0⟩, ⟨8, 0, 0⟩, ⟨9, 0, 0⟩, ⟨10, 0, 0⟩]] ≠
      ([[5]], [[2]], [[π / 4]]) := by
  intro h
  have h0 := congrArg (fun t => (t.1.headD []).length) h
  simp [batch_proj_np] at h0

/-- C5 (amended): on the straight polyline `(0,0) … (10,0)` (integer steps,
heading 0 everywhere) and pose `(5, 2, π/4)`, the nearest waypoint is
`(5, 0, 0)` and `batch_proj` returns `ds = [5, 4, …, 0, …, -5]` (the
longitudinal offset of the pose relative to EVERY waypoint), `dn = [2, …, 2]`,
and `dyaw = [π/4]` exactly. -/
theorem batch_proj_np_straight_line_values :
    batch_proj_np [⟨5, 2, π / 4⟩]
      [[⟨0, 0, 0⟩, ⟨1, 0, 0⟩, ⟨2, 0, 0⟩, ⟨3, 0, 0⟩, ⟨4, 0, 0⟩, ⟨5, 0, 0⟩,
        ⟨6, 0, 0⟩, ⟨7, 0, 0⟩, ⟨8, 0, 0⟩, ⟨9, 0, 0⟩, ⟨10, 0, 0⟩]] =
      ([[5, 4, 3, 2, 1, 0, -1, -2, -3, -4, -5]],
       [[2, 2, 2, 2, 2, 2, 2, 2, 2, 2, 2]],
       [[π / 4]]) := by
  have hdis : lineDis ⟨5, 2, π / 4⟩
      [⟨0, 0, 0⟩, ⟨1, 0, 0⟩, ⟨2, 0, 0⟩, ⟨3, 0, 0⟩, ⟨4, 0, 0⟩, ⟨5, 0, 0⟩,
        ⟨6, 0, 0⟩, ⟨7, 0, 0⟩, ⟨8, 0, 0⟩, ⟨9, 0, 0⟩, ⟨10, 0, 0⟩] =
      List.map Real.sqrt [29, 20, 13, 8, 5, 4, 5, 8, 13, 20, 29] := by
    norm_num [lineDis]
  have hidx : argminIdx (lineDis ⟨5, 2, π / 4⟩
      [⟨0, 0, 0⟩, ⟨1, 0, 0⟩, ⟨2, 0, 0⟩, ⟨3, 0, 0⟩, ⟨4, 0, 0⟩, ⟨5, 0, 0⟩,
        ⟨6, 0, 0⟩, ⟨7, 0, 0⟩, ⟨8, 0, 0⟩, ⟨9, 0, 0⟩, ⟨10, 0, 0⟩]) = 5 := by
    rw [hdis, argminIdx_map_sqrt _ (by norm_num [List.forall_mem_cons])]
    norm_num [argminIdx, listMin, min_def]
  simp only [batch_proj_np, List.zip_cons_cons, List.zip_nil_right,
    List.zip_nil_left, List.map_cons, List.map_nil]
  simp only [hidx, List.getD_cons_succ, List.getD_cons_zero]
  norm_num [Real.cos_zero, Real.sin_zero, round_2pi_pi_div_four]
